import Mathlib

/-!
Verification of the InsightOS RAG-pipeline core.

This file gives a shallow embedding, in Lean, of the algorithmic core of the
repository: the text chunker (`src/indexing/chunker.py`), the text normalizer
(`src/indexing/normalizer.py`), the RAG retriever (`src/core/rag_retriever.py`),
the tool executor (`src/core/tool_executor.py`), the multi-turn chat loop
(`src/agent/claude_client.py`) and the citation merger
(`src/core/response_formatter.py`), together with theorems settling the
specification claims about them.

Python strings are modelled as `List Char`; Python `int` as `Int` (or `Nat`
where the value is provably non-negative); Python `float` as `ℚ` (the code only
adds, subtracts, divides by 2 and compares, so exact rationals model the
arithmetic); exceptions as `Except`/explicit error constructors; external
collaborators (the vector store, the LLM API, the MCP peer, the `unicodedata`
library) as explicit function parameters, exactly as the spec treats them
(black boxes behind an interface).
-/

/-! ## Python string helpers -/

/-- Python strings modelled as character lists. -/
abbrev PyStr := List Char

/-- Python's notion of whitespace for `str.strip` / `\s`
(space, tab, newline, carriage return, vertical tab, form feed). -/
def isPyWS (c : Char) : Bool :=
  c = ' ' || c = '\t' || c = '\n' || c = '\r' || c = Char.ofNat 11 || c = Char.ofNat 12

/-- Python `str.strip()`: drop leading and trailing whitespace. -/
def pyStrip (s : PyStr) : PyStr :=
  ((s.dropWhile isPyWS).reverse.dropWhile isPyWS).reverse

/-- Whether `pat` is an initial segment of `s`. -/
def pyStartsWith : (pat : PyStr) → (s : PyStr) → Bool
  | [], _ => true
  | _ :: _, [] => false
  | a :: as, b :: bs => a = b && pyStartsWith as bs

/-- Fuelled scanner for `str.replace`; the fuel (initially the string length)
strictly dominates the number of scan steps, since each step consumes at least
one character, so the `0` base case is never reached with input remaining. -/
def pyReplaceFuel (old new : PyStr) : Nat → PyStr → PyStr
  | _, [] => []
  | 0, s => s
  | fuel + 1, c :: rest =>
    if old ≠ [] ∧ pyStartsWith old (c :: rest) then
      new ++ pyReplaceFuel old new fuel ((c :: rest).drop old.length)
    else
      c :: pyReplaceFuel old new fuel rest

/-- Python `str.replace(old, new)`: simultaneous non-overlapping left-to-right
replacement.  (Python's behaviour for `old = ""` is irrelevant here: every
pattern used by the source is non-empty.) -/
def pyReplace (old new s : PyStr) : PyStr :=
  pyReplaceFuel old new s.length s

/-- Python `text.split(sep)` for a single-character separator: splits at every
occurrence, keeping empty pieces. -/
def pySplitChar (sep : Char) : PyStr → List PyStr
  | [] => [[]]
  | c :: rest =>
    match pySplitChar sep rest with
    | [] => if c = sep then [[], []] else [[c]]
    | p :: ps => if c = sep then [] :: p :: ps else (c :: p) :: ps

/-- Python `sep.join(pieces)`. -/
def pyJoin (sep : PyStr) : List PyStr → PyStr
  | [] => []
  | [x] => x
  | x :: y :: rest => x ++ sep ++ pyJoin sep (y :: rest)

/-! ## Chunker (`src/indexing/chunker.py`) -/

/-- Mirrors the `TextChunk` class: a slice of text with its index and character
offsets.  Offsets are `Int` because the sentence-mode bookkeeping can produce
arbitrary integers. -/
structure TextChunk where
  text : PyStr
  chunk_index : Nat
  start_pos : Int
  end_pos : Int
deriving DecidableEq, Repr

/-- Loop body of `_chunk_by_characters` (lines 127-152): a sliding window of
`size` characters stepping by `size - overlap`.  The proof argument
`h : overlap < size` reflects the validation performed by every caller; without
it the Python loop does not terminate. -/
def chunkByCharsLoop (text : PyStr) (size overlap : Nat) :
    (fuel start idx : Nat) → List TextChunk
  | 0, _, _ => []
  | fuel + 1, start, idx =>
    if start < text.length then
      { text := (text.drop start).take size,
        chunk_index := idx,
        start_pos := (start : Int),
        end_pos := ((start + size : Nat) : Int) }
        :: chunkByCharsLoop text size overlap fuel (start + size - overlap) (idx + 1)
    else
      []

/-- Translation of `_chunk_by_characters`.  All call sites first validate
`overlap < size`; on `overlap ≥ size` the Python loop never terminates, so that
(unreachable) branch is rendered as `[]`.  With `overlap < size` every
iteration advances `start` by at least one, so a fuel of `text.length` is
never exhausted while `start < text.length`. -/
def chunkByCharacters (text : PyStr) (size overlap : Nat) : List TextChunk :=
  if overlap < size then chunkByCharsLoop text size overlap text.length 0 0 else []

/-- The abbreviation de-punctuation table of `_split_into_sentences`
(lines 280-290), in source order. -/
def abbrevPairs : List (PyStr × PyStr) :=
  [("Dr.".toList, "Dr".toList), ("Mr.".toList, "Mr".toList),
   ("Mrs.".toList, "Mrs".toList), ("Ms.".toList, "Ms".toList),
   ("Prof.".toList, "Prof".toList), ("Sr.".toList, "Sr".toList),
   ("Jr.".toList, "Jr".toList), ("etc.".toList, "etc".toList),
   ("e.g.".toList, "eg".toList), ("i.e.".toList, "ie".toList),
   ("vs.".toList, "vs".toList)]

/-- Applies the abbreviation replacements in order. -/
def replaceAbbrevs (s : PyStr) : PyStr :=
  abbrevPairs.foldl (fun t p => pyReplace p.1 p.2 t) s

/-- Python character class `[A-Z]`. -/
def isUpperAZ (c : Char) : Bool := 'A' ≤ c && c ≤ 'Z'

/-- Python character class `[.!?]`. -/
def isSentMark (c : Char) : Bool := c = '.' || c = '!' || c = '?'

/-- Whether the character before the current scan position is in `[.!?]`
(`none` at the start of the string, where the lookbehind fails). -/
def prevIsSentMark : Option Char → Bool
  | none => false
  | some c => isSentMark c

/-- Prepends a character to the piece currently being built (the head of the
piece list). -/
def splitCons (c : Char) : List PyStr → List PyStr
  | [] => [[c]]
  | p :: ps => (c :: p) :: ps

/-- Scanner for `re.split(r'(?<=[.!?])\s+(?=[A-Z])|(?<=[.!?])$', text)`
(line 294).  The result is the list of pieces; the head of the returned list is
the piece currently being built, so callers prepend characters to it.

The first alternative matches a (maximal) whitespace run preceded by `[.!?]`
and followed by `[A-Z]` (shorter runs cannot satisfy the lookahead since the
next character would still be whitespace); the second is a zero-width match at
the end of the string, or just before a single trailing newline, when the
previous character is in `[.!?]`. -/
def splitSentencesAux (fuel : Nat) (prev : Option Char) (s : PyStr) : List PyStr :=
  match fuel, prev, s with
  | _, prev, [] => if prevIsSentMark prev then [[], []] else [[]]
  | 0, _, s => [s]
  | fuel + 1, prev, c :: rest =>
    if prevIsSentMark prev && isPyWS c then
      match (c :: rest).dropWhile isPyWS with
      | d :: rest3 =>
        if isUpperAZ d then
          [] :: splitSentencesAux fuel
            (some (((c :: rest).takeWhile isPyWS).getLastD c)) (d :: rest3)
        else
          splitCons c (splitSentencesAux fuel (some c) rest)
      | [] =>
        if c = '\n' && rest = [] then
          [[], [c]]
        else
          splitCons c (splitSentencesAux fuel (some c) rest)
    else
      splitCons c (splitSentencesAux fuel (some c) rest)

/-- Translation of `_split_into_sentences` (lines 265-300).  Every scanner
step consumes at least one character, so a fuel of the string length is never
exhausted with input remaining. -/
def splitIntoSentences (text : PyStr) : List PyStr :=
  let t := replaceAbbrevs text
  let pieces := splitSentencesAux t.length none t
  (pieces.map pyStrip).filter (fun s => s ≠ [])

/-- Python `" ".join(current_chunk)`. -/
def joinSp (xs : List PyStr) : PyStr := pyJoin [' '] xs

/-- The reversed-scan overlap-carryover loop of `_chunk_by_sentences`
(lines 232-240), called on `current_chunk.reverse` with accumulators `[]`, `0`:
returns `(overlap_sentences, overlap_length)`. -/
def overlapLoop (overlap : Int) : List PyStr → List PyStr → Int → List PyStr × Int
  | [], acc, accLen => (acc, accLen)
  | s :: rest, acc, accLen =>
    if accLen + (s.length : Int) ≤ overlap then
      overlapLoop overlap rest (s :: acc) (accLen + s.length + 1)
    else
      (acc, accLen)

/-- Mutable state of the `for sentence in sentences` loop in
`_chunk_by_sentences`. -/
structure SentChunkState where
  chunks : List TextChunk
  current_chunk : List PyStr
  current_length : Int
  chunk_index : Nat
  start_pos : Int
deriving Repr

/-- Re-indexing of the character-mode sub-chunks of an over-long sentence
(lines 208-214): each receives the running `chunk_index` and has its offsets
shifted by `start_pos`. -/
def reindexLong (base : Nat) (shift : Int) : List TextChunk → List TextChunk
  | [] => []
  | c :: rest =>
    { c with chunk_index := base,
             start_pos := shift + c.start_pos,
             end_pos := shift + c.end_pos } :: reindexLong (base + 1) shift rest

/-- Fallback chunk used to render Python's `chunks[-1]` on an empty list; the
code guarantees the list is non-empty at both read sites, so this value is
never observed. -/
def dummyChunk : TextChunk := ⟨[], 0, 0, 0⟩

/-- One iteration of the `for sentence in sentences` loop of
`_chunk_by_sentences` (lines 187-249). -/
def sentStep (size overlap : Nat) (st : SentChunkState) (sentence : PyStr) :
    SentChunkState :=
  let sl : Int := sentence.length
  if sl > (size : Int) then
    -- over-long sentence: flush the current chunk, then splice in
    -- character-mode sub-chunks (lines 191-217)
    let st2 :=
      if st.current_chunk ≠ [] then
        let ct := joinSp st.current_chunk
        { chunks := st.chunks ++
            [⟨ct, st.chunk_index, st.start_pos, st.start_pos + ct.length⟩],
          current_chunk := [],
          current_length := 0,
          chunk_index := st.chunk_index + 1,
          start_pos := st.start_pos + ct.length - overlap }
      else st
    let long := chunkByCharacters sentence size overlap
    let withIdx := reindexLong st2.chunk_index st2.start_pos long
    let chunks2 := st2.chunks ++ withIdx
    { chunks := chunks2,
      current_chunk := st2.current_chunk,
      current_length := st2.current_length,
      chunk_index := st2.chunk_index + long.length,
      start_pos := (chunks2.getLastD dummyChunk).end_pos - overlap }
  else
    -- normal sentence: flush if it would overflow, carrying overlap sentences
    -- (lines 220-245), then append (lines 248-249)
    let st2 :=
      if st.current_length + sl > (size : Int) ∧ st.current_chunk ≠ [] then
        let ct := joinSp st.current_chunk
        let flushed := st.chunks ++
          [⟨ct, st.chunk_index, st.start_pos, st.start_pos + ct.length⟩]
        let ov := overlapLoop (overlap : Int) st.current_chunk.reverse [] 0
        { chunks := flushed,
          current_chunk := ov.1,
          current_length :=
            ((ov.1.map (fun s => (s.length : Int))).sum) + ov.1.length - 1,
          chunk_index := st.chunk_index + 1,
          start_pos := (flushed.getLastD dummyChunk).end_pos - ov.2 }
      else st
    let cc := st2.current_chunk ++ [sentence]
    { st2 with
      current_chunk := cc,
      current_length := st2.current_length + sl + (if cc = [] then 0 else 1) }

/-- Translation of `_chunk_by_sentences` (lines 158-262). -/
def chunkBySentences (text : PyStr) (size overlap : Nat) : List TextChunk :=
  let sentences := splitIntoSentences text
  if sentences = [] then
    chunkByCharacters text size overlap
  else
    let st := sentences.foldl (sentStep size overlap) ⟨[], [], 0, 0, 0⟩
    if st.current_chunk ≠ [] then
      let ct := joinSp st.current_chunk
      st.chunks ++ [⟨ct, st.chunk_index, st.start_pos, st.start_pos + ct.length⟩]
    else
      st.chunks

/-- Translation of `chunk_text` (lines 56-108), including the parameter
validation: non-positive `chunk_size` falls back to `DEFAULT_CHUNK_SIZE = 300`,
a negative overlap is clamped to 0, and an overlap `≥ size` is reduced to
`size // 2`. -/
def chunkText (text : PyStr) (chunk_size chunk_overlap : Int)
    (preserve_sentences : Bool) : List TextChunk :=
  if text = [] ∨ pyStrip text = [] then []
  else
    let size := if chunk_size ≤ 0 then 300 else chunk_size
    let ov := if chunk_overlap < 0 then 0 else chunk_overlap
    let ov := if ov ≥ size then size / 2 else ov
    if (text.length : Int) ≤ size then
      [⟨text, 0, 0, (text.length : Int)⟩]
    else if preserve_sentences then
      chunkBySentences text size.toNat ov.toNat
    else
      chunkByCharacters text size.toNat ov.toNat

/-! ## Normalizer (`src/indexing/normalizer.py`) -/

/-- External text facilities used by the normalizer: `unicodedata.normalize('NFC', ·)`,
the `unicodedata.category(·)[0] == 'C'` test, and the two regex-based removal
steps `_remove_urls` / `_remove_emails` (lines 274-314).  These depend on the
Unicode tables and the `re` engine and are treated as black-box string
transformations; every claim settled below evaluates configurations whose
flags keep the corresponding branches closed, or ASCII inputs on which the
chosen instantiation agrees with the library. -/
structure TextLib where
  nfc : PyStr → PyStr
  isCategoryC : Char → Bool
  removeUrls : PyStr → PyStr
  removeEmails : PyStr → PyStr

/-- Mirrors the `Normalizer` constructor flags (lines 28-65). -/
structure Normalizer where
  normalize_unicode : Bool := true
  normalize_whitespace : Bool := true
  normalize_linebreaks : Bool := true
  normalize_quotes : Bool := true
  normalize_dashes : Bool := true
  remove_control_chars : Bool := true
  lowercase : Bool := false
  normalize_numbers : Bool := false
  remove_urls : Bool := false
  remove_emails : Bool := false
deriving Repr

/-- `_remove_control_chars` (lines 147-161): keep a character iff its Unicode
category does not start with `C`, or it is one of `\n`, `\t`, `\r`. -/
def removeControlChars (lib : TextLib) (s : PyStr) : PyStr :=
  s.filter (fun c => !(lib.isCategoryC c) || c = '\n' || c = '\t' || c = '\r')

/-- The double-quote class of `_normalize_quotes` (line 179): in the source
file the class is `["«»„]` (a straight quote plus guillemets and a low-9
quote). -/
def isDoubleQuoteClass (c : Char) : Bool :=
  c = '"' || c = Char.ofNat 0xAB || c = Char.ofNat 0xBB || c = Char.ofNat 0x201E

/-- The single-quote class of `_normalize_quotes` (line 182): `[''‚‛]`
(a straight apostrophe plus U+201A and U+201B). -/
def isSingleQuoteClass (c : Char) : Bool :=
  c = Char.ofNat 0x27 || c = Char.ofNat 0x201A || c = Char.ofNat 0x201B

/-- `_normalize_quotes` (lines 163-184): both regexes replace single
characters of a class, so they act as a character map. -/
def normalizeQuotes (s : PyStr) : PyStr :=
  (s.map (fun c => if isDoubleQuoteClass c then '"' else c)).map
    (fun c => if isSingleQuoteClass c then Char.ofNat 0x27 else c)

/-- The dash class of `_normalize_dashes` (line 201): `[—–‐]`
(U+2014, U+2013, U+2010). -/
def isDashClass (c : Char) : Bool :=
  c = Char.ofNat 0x2014 || c = Char.ofNat 0x2013 || c = Char.ofNat 0x2010

/-- `_normalize_dashes` (lines 186-201). -/
def normalizeDashes (s : PyStr) : PyStr :=
  s.map (fun c => if isDashClass c then '-' else c)

/-- Python character class `\d` restricted to ASCII (all inputs considered in
this development are ASCII digits). -/
def isAsciiDigit (c : Char) : Bool := '0' ≤ c && c ≤ '9'

/-- Scanner for `re.sub(r'(\d)SEP(\d{3})', r'\1\2', text)` with a one-character
separator (lines 267 and 270): a single left-to-right pass; after a match the
scan resumes after the matched five characters (the replacement is not
re-scanned). -/
def subThousandsSep (sep : Char) : PyStr → PyStr
  | d :: s :: a :: b :: c :: rest =>
    if isAsciiDigit d && s = sep && isAsciiDigit a && isAsciiDigit b && isAsciiDigit c then
      d :: a :: b :: c :: subThousandsSep sep rest
    else
      d :: subThousandsSep sep (s :: a :: b :: c :: rest)
  | c :: rest => c :: subThousandsSep sep rest
  | [] => []

/-- `_normalize_numbers` (lines 249-272): strip comma thousand separators,
then period (European) thousand separators. -/
def normalizeNumbers (s : PyStr) : PyStr :=
  subThousandsSep '.' (subThousandsSep ',' s)

/-- Scanner for `re.sub(r'\n{3,}', '\n\n', text)` (line 221): a maximal run of
three or more newlines becomes exactly two (while at least three newlines are
ahead, the leading one is dropped; the final two survive). -/
def collapseNewlineRuns : PyStr → PyStr
  | '\n' :: '\n' :: '\n' :: rest =>
    collapseNewlineRuns ('\n' :: '\n' :: rest)
  | c :: rest => c :: collapseNewlineRuns rest
  | [] => []

/-- `_normalize_linebreaks` (lines 203-223). -/
def normalizeLinebreaks (s : PyStr) : PyStr :=
  collapseNewlineRuns (pyReplace ['\r'] ['\n'] (pyReplace ['\r', '\n'] ['\n'] s))

/-- Scanner for `re.sub(r' {2,}', ' ', line)` (line 244): a maximal run of two
or more spaces becomes one. -/
def collapseSpaceRuns : PyStr → PyStr
  | [] => []
  | [c] => [c]
  | c :: d :: rest =>
    if c = ' ' && d = ' ' then collapseSpaceRuns (d :: rest)
    else c :: collapseSpaceRuns (d :: rest)

/-- `_normalize_whitespace` (lines 225-247): tabs to spaces, then per line
(split on `\n`) strip and collapse space runs, rejoined with `\n`. -/
def normalizeWhitespace (s : PyStr) : PyStr :=
  let t := pyReplace ['\t'] [' '] s
  let lines := pySplitChar '\n' t
  pyJoin ['\n'] (lines.map (fun l => collapseSpaceRuns (pyStrip l)))

/-- Python `str.lower()` restricted to ASCII case mapping. -/
def pyLower (s : PyStr) : PyStr := s.map Char.toLower

/-- Translation of `Normalizer.normalize` (lines 69-126): the enabled steps in
source order, then a final `strip()`. -/
def Normalizer.normalize (lib : TextLib) (n : Normalizer) (text : PyStr) : PyStr :=
  if text = [] then []
  else
    let t := if n.normalize_unicode then lib.nfc text else text
    let t := if n.remove_control_chars then removeControlChars lib t else t
    let t := if n.remove_urls then lib.removeUrls t else t
    let t := if n.remove_emails then lib.removeEmails t else t
    let t := if n.normalize_quotes then normalizeQuotes t else t
    let t := if n.normalize_dashes then normalizeDashes t else t
    let t := if n.normalize_numbers then normalizeNumbers t else t
    let t := if n.normalize_linebreaks then normalizeLinebreaks t else t
    let t := if n.normalize_whitespace then normalizeWhitespace t else t
    let t := if n.lowercase then pyLower t else t
    pyStrip t

/-- Mirrors `get_default_normalizer` (lines 364-382). -/
def defaultNormalizer : Normalizer :=
  { normalize_unicode := true,
    normalize_whitespace := true,
    normalize_linebreaks := true,
    normalize_quotes := true,
    normalize_dashes := true,
    remove_control_chars := true,
    lowercase := false,
    normalize_numbers := false,
    remove_urls := false,
    remove_emails := false }

/-- Instantiation of the external text facilities that is faithful on the
printable-ASCII-plus-newline inputs evaluated below: NFC is the identity on
ASCII, the category-`C` characters among them are exactly the C0 controls and
DEL (so `\n` is category `Cc`, matching `unicodedata`), and the URL/email
branches are never enabled in any evaluated configuration. -/
def asciiLib : TextLib :=
  { nfc := id,
    isCategoryC := fun c => c.toNat < 32 || c.toNat = 127,
    removeUrls := id,
    removeEmails := id }

/-! ## Retriever (`src/core/rag_retriever.py`) -/

/-- Chunk metadata as stored in the vector store: an open Python dict of which
the code reads the keys below via `metadata.get(key, default)`; a `none` field
models an absent key. -/
structure Metadata where
  filename : Option String := none
  filepath : Option String := none
  chunk_index : Option Int := none
  file_type : Option String := none
  file_size : Option Int := none
  timestamp : Option String := none
deriving DecidableEq, Repr

instance : Inhabited Metadata := ⟨{}⟩

/-- One raw match as returned by `ChromaDBClient.query`
(`src/indexing/chromadb_client.py` lines 204-242): document text, metadata and
an optional distance (the code reads it with `result.get('distance', default)`). -/
structure RawResult where
  document : String
  metadata : Metadata
  distance : Option ℚ
deriving DecidableEq, Repr

/-- Mirrors the `RetrievalResult` class (lines 17-51). -/
structure RetrievalResult where
  text : String
  metadata : Metadata
  distance : ℚ
  relevance_score : ℚ
deriving DecidableEq, Repr

/-- Retriever configuration (constructor, lines 60-76). -/
structure RAGRetrieverCfg where
  top_k : Nat
  similarity_threshold : ℚ

/-- The scoring-and-filtering loop of `RAGRetriever.retrieve` (lines 125-139):
distance defaults to `1.0`, relevance is `max(0, 1 - distance/2)`, and a
result is kept only when its relevance reaches the threshold. -/
def scoreAndFilter (threshold : ℚ) (raws : List RawResult) : List RetrievalResult :=
  raws.filterMap (fun r =>
    let distance := r.distance.getD 1
    let relevance_score := max 0 (1 - distance / 2)
    if relevance_score ≥ threshold then
      some ⟨r.document, r.metadata, distance, relevance_score⟩
    else
      none)

/-- Translation of `RAGRetriever.retrieve` (lines 87-157).  The vector store is
the black-box collaborator; `raw_results` is its reply for this query (the
store client catches its own errors and returns `[]`, and the outer
`try/except` of `retrieve` likewise converts any error into `[]`, so the
reply list fully determines the output). -/
def RAGRetriever.retrieve (cfg : RAGRetrieverCfg) (query : PyStr)
    (raw_results : List RawResult) : List RetrievalResult :=
  if query = [] ∨ pyStrip query = [] then []
  else if raw_results = [] then []
  else
    let results := scoreAndFilter cfg.similarity_threshold raw_results
    if results = [] then [] else results

/-! ## Tool executor (`src/core/tool_executor.py`) -/

/-- Reply shape of `ChromaDBClient.get_documents_by_file`
(`src/indexing/chromadb_client.py` lines 315-332). -/
structure GetResult where
  ids : List String
  documents : List String
  metadatas : List Metadata
deriving Repr

/-- The vector-store client as seen by the tool executor: its four read
operations, each total (the client catches its own exceptions and returns an
empty reply). -/
structure ChromaDBModel where
  query : String → Nat → Option (String × String) → List RawResult
  getByFile : String → GetResult
  fileIsIndexed : String → Bool
  indexedFiles : List String

/-- Payload of a successful `_search_documents` entry (lines 245-251). -/
structure SearchResultItem where
  content : String
  metadata : Metadata
  relevance : ℚ
deriving DecidableEq, Repr

/-- Return value of `_search_documents` (lines 253-257). -/
structure SearchPayload where
  query : String
  num_results : Nat
  results : List SearchResultItem
deriving DecidableEq, Repr

/-- Return value of `_list_indexed_files` (lines 290-293). -/
structure ListFilesPayload where
  total_files : Nat
  files : List String
deriving Repr

/-- Return value of `_get_file_content` (lines 295-352): `err e` models the
dict `{'success': False, 'error': e}`, `ok` the success dict of lines 339-345. -/
inductive FileContentPayload where
  | err (error : String)
  | ok (filepath content : String) (num_chunks : Nat) (metadata : Metadata)
deriving DecidableEq, Repr

/-- Return value of `_get_file_info` (lines 354-397): `err e` models the dict
`{'success': False, 'error': e}`, `ok` the success dict of lines 382-390. -/
inductive FileInfoPayload where
  | err (error : String)
  | ok (filepath : String) (filename file_type : Option String)
      (file_size : Option Int) (num_chunks : Nat) (timestamp : Option String)
deriving DecidableEq, Repr

/-- The `result` slot of a `ToolResult` (Python `Any`): one constructor per
built-in tool plus an uninterpreted payload for forwarded MCP calls. -/
inductive ToolPayload where
  | search (p : SearchPayload)
  | listFiles (p : ListFilesPayload)
  | fileContent (p : FileContentPayload)
  | fileInfo (p : FileInfoPayload)
  | peer (data : String)
deriving Repr

/-- Keyword arguments of a tool call (`tool_func(**tool_input)`): the fields
the four built-ins accept; a `none` models an absent key, which for a required
parameter raises `TypeError` (caught by `execute_tool`). -/
structure ToolInput where
  query : Option String := none
  top_k : Option Nat := none
  file_type_filter : Option String := none
  limit : Option Nat := none
  filepath : Option String := none
  max_length : Option Nat := none
deriving Repr

/-- Mirrors the `ToolResult` class (lines 16-51). -/
structure ToolResult where
  tool_name : String
  success : Bool
  result : Option ToolPayload
  error : Option String
deriving Repr

/-- The `where` filter built by `_search_documents` (lines 233-235); Python
tests `if file_type_filter:`, so an empty string behaves like an absent one. -/
def whereFilterOf (file_type_filter : Option String) : Option (String × String) :=
  match file_type_filter with
  | some ft => if ft = "" then none else some ("file_type", ft)
  | none => none

/-- Translation of `_search_documents` (lines 213-257): relevance is
`1.0 - distance/2` with the distance defaulting to `0` — no clamping at zero
and no threshold filter. -/
def searchDocuments (db : ChromaDBModel) (query : String) (top_k : Nat)
    (file_type_filter : Option String) : SearchPayload :=
  let raw := db.query query top_k (whereFilterOf file_type_filter)
  let formatted := raw.map (fun r =>
    SearchResultItem.mk r.document r.metadata (1 - (r.distance.getD 0) / 2))
  ⟨query, formatted.length, formatted⟩

/-- Translation of `_list_indexed_files` (lines 259-293); `if limit:` makes a
zero limit behave like no limit. -/
def listIndexedFiles (db : ChromaDBModel) (file_type_filter : Option String)
    (limit : Option Nat) : ListFilesPayload :=
  let allFiles := db.indexedFiles
  let allFiles := match file_type_filter with
    | some ft => if ft = "" then allFiles else allFiles.filter (fun f => f.endsWith ft)
    | none => allFiles
  let allFiles := match limit with
    | some l => if l = 0 then allFiles else allFiles.take l
    | none => allFiles
  ⟨allFiles.length, allFiles⟩

/-- Translation of `_get_file_content` (lines 295-352); `if max_length and
len(content) > max_length:` makes a zero `max_length` behave like none. -/
def getFileContent (db : ChromaDBModel) (filepath : String)
    (max_length : Option Nat) : FileContentPayload :=
  if !(db.fileIsIndexed filepath) then
    .err ("File not indexed: " ++ filepath)
  else
    let results := db.getByFile filepath
    if results.documents = [] then
      .err ("No content found for file: " ++ filepath)
    else
      let content := String.intercalate "\n\n" results.documents
      let content := match max_length with
        | some ml => if ml ≠ 0 ∧ content.length > ml then
            (content.take ml) ++ "... [truncated]" else content
        | none => content
      let metadata := results.metadatas.headD default
      .ok filepath content results.documents.length metadata

/-- Translation of `_get_file_info` (lines 354-397). -/
def getFileInfo (db : ChromaDBModel) (filepath : String) : FileInfoPayload :=
  let results := db.getByFile filepath
  if results.metadatas = [] then
    .err ("File not found in index: " ++ filepath)
  else
    let metadata := results.metadatas.headD default
    .ok filepath metadata.filename metadata.file_type metadata.file_size
      results.documents.length metadata.timestamp

/-- The registered built-in tool names (lines 75-80). -/
def builtinToolNames : List String :=
  ["search_documents", "list_indexed_files", "get_file_content", "get_file_info"]

/-- Dispatch of `_execute_builtin_tool` (lines 191-211) together with the
`tool_func(**tool_input)` call: a missing required keyword argument raises
`TypeError`, modelled as `.error`; the final branch mirrors the (unreachable
from `execute_tool`) `ValueError` of line 209. -/
def executeBuiltin (db : ChromaDBModel) (tool_name : String) (tool_input : ToolInput) :
    Except String ToolPayload :=
  if tool_name = "search_documents" then
    match tool_input.query with
    | none => .error "_search_documents() missing 1 required positional argument: 'query'"
    | some q => .ok (.search (searchDocuments db q (tool_input.top_k.getD 5)
        tool_input.file_type_filter))
  else if tool_name = "list_indexed_files" then
    .ok (.listFiles (listIndexedFiles db tool_input.file_type_filter tool_input.limit))
  else if tool_name = "get_file_content" then
    match tool_input.filepath with
    | none => .error "_get_file_content() missing 1 required positional argument: 'filepath'"
    | some fp => .ok (.fileContent (getFileContent db fp tool_input.max_length))
  else if tool_name = "get_file_info" then
    match tool_input.filepath with
    | none => .error "_get_file_info() missing 1 required positional argument: 'filepath'"
    | some fp => .ok (.fileInfo (getFileInfo db fp))
  else
    .error ("Built-in tool not found: " ++ tool_name)

/-- The MCP peer client as seen by the executor: tool discovery (which may
fail) and invocation (whose exceptions are caught by `execute_tool`). -/
structure MCPClientModel where
  list_tools : Except String (List String)
  call_tool : String → ToolInput → Except String ToolPayload

/-- Mirrors the `ToolExecutor` constructor (lines 59-82). -/
structure ToolExecutor where
  chromadb_client : ChromaDBModel
  mcp_client : Option MCPClientModel

/-- Translation of `_is_mcp_tool` (lines 490-509): `false` without a peer, and
`false` when tool discovery itself fails (the exception is caught). -/
def isMcpTool (ex : ToolExecutor) (tool_name : String) : Bool :=
  match ex.mcp_client with
  | none => false
  | some c =>
    match c.list_tools with
    | .error _ => false
    | .ok names => names.contains tool_name

/-- Translation of `ToolExecutor.execute_tool` (lines 88-143): built-in
dispatch, then peer dispatch (`elif self.mcp_client and self._is_mcp_tool`),
then the unknown-tool result; every exception raised inside the `try` is
converted to a failed `ToolResult`, so the function is total. -/
def ToolExecutor.execute_tool (ex : ToolExecutor) (tool_name : String)
    (tool_input : ToolInput) : ToolResult :=
  if builtinToolNames.contains tool_name then
    match executeBuiltin ex.chromadb_client tool_name tool_input with
    | .ok p => ⟨tool_name, true, some p, none⟩
    | .error e => ⟨tool_name, false, none, some e⟩
  else
    match ex.mcp_client with
    | some c =>
      if isMcpTool ex tool_name then
        match c.call_tool tool_name tool_input with
        | .ok p => ⟨tool_name, true, some p, none⟩
        | .error e => ⟨tool_name, false, none, some e⟩
      else
        ⟨tool_name, false, none, some ("Unknown tool: " ++ tool_name)⟩
    | none =>
      ⟨tool_name, false, none, some ("Unknown tool: " ++ tool_name)⟩

/-! ## Conversation orchestrator (`src/agent/claude_client.py`, `chat`) -/

/-- One observed LLM API call: either a response (stop reason, the text content
already extracted from its blocks and cleaned as on lines 459-466 — no settled
claim constrains that string — and its token usage), or an
`anthropic.APIError` (raised before any usage is observable). -/
inductive LLMCallResult where
  | ok (stop_reason : String) (text : String) (input_tokens output_tokens : Nat)
  | apiError (msg : String)

/-- The LLM service as a black-box trace: the reply to the `k`-th API call of
this `chat()` invocation.  (The real reply is a function of the accumulated
message list; indexing calls by their sequence number is the trace of one run.) -/
abbrev LLMOracle := Nat → LLMCallResult

/-- The return dict of `chat` (lines 362-372, 470-479, 489-498). -/
structure ChatResult where
  content : String
  model : String
  tokens_input : Nat
  tokens_output : Nat
  stop_reason : String
  turns : Nat
deriving DecidableEq, Repr

/-- The fixed fallback message returned when the tool-use loop hits the cap
(lines 484-487). -/
def maxTurnsMessage : String :=
  "I apologize, but I've reached the maximum number of tool use iterations. Please try rephrasing your request or breaking it into smaller steps."

/-- The `while turn_count < max_tool_turns` loop of `chat` (lines 329-498),
with `remaining = max_tool_turns - turn_count` as the (structural) loop
counter.  Per iteration: increment the turn counter, call the LLM; an
`APIError` returns `stop_reason="error"` with the tokens accumulated so far;
otherwise add this call's usage, loop again on `stop_reason == "tool_use"`
(the message-list bookkeeping of lines 381-452 does not influence any returned
field), else return the response.  Falling out of the loop returns the fixed
fallback with `stop_reason="max_turns"`. -/
def chatLoop (oracle : LLMOracle) (model : String) :
    (remaining turn_count tin tout : Nat) → ChatResult
  | 0, turn_count, tin, tout =>
    ⟨maxTurnsMessage, model, tin, tout, "max_turns", turn_count⟩
  | remaining + 1, turn_count, tin, tout =>
    match oracle turn_count with
    | .apiError msg =>
      ⟨"API Error: " ++ msg, model, tin, tout, "error", turn_count + 1⟩
    | .ok stop text itok otok =>
      if stop = "tool_use" then
        chatLoop oracle model remaining (turn_count + 1) (tin + itok) (tout + otok)
      else
        ⟨text, model, tin + itok, tout + otok, stop, turn_count + 1⟩

/-- Translation of `ClaudeClient.chat` (lines 284-498) restricted to its loop:
system-prompt and tool-list assembly (lines 305-322) produce the context the
oracle already closes over. -/
def ClaudeClient.chat (oracle : LLMOracle) (model : String) (max_tool_turns : Nat) :
    ChatResult :=
  chatLoop oracle model max_tool_turns 0 0 0

/-- Number of LLM API calls `chat` performs, written against the spec's
wording ("the number of LLM calls made"): one per loop iteration, including a
call that raises, stopping at a non-`tool_use` stop reason or at the cap. -/
def chatCallsFrom (oracle : LLMOracle) : (remaining turn_count : Nat) → Nat
  | 0, _ => 0
  | remaining + 1, turn_count =>
    match oracle turn_count with
    | .apiError _ => 1
    | .ok stop _ _ _ =>
      if stop = "tool_use" then 1 + chatCallsFrom oracle remaining (turn_count + 1)
      else 1

/-- Total number of LLM API calls of one `chat()` run. -/
def chatCalls (oracle : LLMOracle) (max_tool_turns : Nat) : Nat :=
  chatCallsFrom oracle max_tool_turns 0

/-- Input-token count reported by the `k`-th API call (a call that raises
reports none). -/
def callInputTokens (oracle : LLMOracle) (k : Nat) : Nat :=
  match oracle k with
  | .ok _ _ itok _ => itok
  | .apiError _ => 0

/-- Output-token count reported by the `k`-th API call. -/
def callOutputTokens (oracle : LLMOracle) (k : Nat) : Nat :=
  match oracle k with
  | .ok _ _ _ otok => otok
  | .apiError _ => 0

/-! ## Response formatter (`src/core/response_formatter.py`) -/

/-- One citation parsed out of the LLM's trailing "Sources:" section by
`_extract_citations` (lines 248-254): number, filename, filepath (empty when
absent) and an always-empty excerpt. -/
structure ExtractedCitation where
  number : Int
  filename : String
  filepath : String
  excerpt : String := ""
deriving DecidableEq, Repr

/-- A full citation record as built by `_merge_citations` (lines 295-303). -/
structure Citation where
  number : Int
  filename : String
  filepath : String
  excerpt : String
  chunk_index : Int
  relevance_score : ℚ
  file_type : String
deriving DecidableEq, Repr

/-- One element of the `retrieval_results` argument of `_merge_citations`: an
object with a `metadata` attribute (lines 284-287; `text`/`relevance_score`
read only if present), a dict (lines 288-291; keys read with defaults), or
anything else (skipped by the `continue` of line 293). -/
inductive MergeInput where
  | obj (metadata : Metadata) (text : Option String) (relevance : Option ℚ)
  | dict (metadata : Option Metadata) (document : Option String) (relevance : Option ℚ)
  | other
deriving Repr

/-- `ResponseFormatter._truncate_text` (lines 325-339). -/
def truncateText (text : String) (max_length : Nat) : String :=
  if text.length ≤ max_length then text
  else (text.take max_length).trim ++ "..."

/-- Builds the citation for the `i`-th retrieval result (lines 282-305);
`none` renders the `continue` branch. -/
def buildCitation (i : Nat) (r : MergeInput) : Option Citation :=
  match r with
  | .obj metadata text relevance =>
    some { number := (i : Int) + 1,
           filename := metadata.filename.getD "Unknown",
           filepath := metadata.filepath.getD "",
           excerpt := truncateText (text.getD "") 200,
           chunk_index := metadata.chunk_index.getD 0,
           relevance_score := relevance.getD 0,
           file_type := metadata.file_type.getD "" }
  | .dict metadata document relevance =>
    some { number := (i : Int) + 1,
           filename := (metadata.getD default).filename.getD "Unknown",
           filepath := (metadata.getD default).filepath.getD "",
           excerpt := truncateText (document.getD "") 200,
           chunk_index := (metadata.getD default).chunk_index.getD 0,
           relevance_score := relevance.getD 0,
           file_type := (metadata.getD default).file_type.getD "" }
  | .other => none

/-- The rebuilt citation list (the `for i, result in enumerate(...)` loop of
lines 282-305). -/
def rebuildCitations (results : List MergeInput) : List Citation :=
  results.enum.filterMap (fun p => buildCitation p.1 p.2)

/-- In-place update of index `n` of a list. -/
def listModify {α : Type} (f : α → α) : Nat → List α → List α
  | _, [] => []
  | 0, a :: as => f a :: as
  | n + 1, a :: as => a :: listModify f n as

/-- One iteration of the patching loop of `_merge_citations` (lines 310-317):
an extracted citation whose number is in range overwrites
`filename`/`filepath` of the matching rebuilt citation when it supplies
non-empty values. -/
def patchStep (cs : List Citation) (e : ExtractedCitation) : List Citation :=
  if 0 < e.number ∧ e.number ≤ (cs.length : Int) then
    listModify (fun c =>
        { c with
          filename := if e.filename ≠ "" then e.filename else c.filename,
          filepath := if e.filepath ≠ "" then e.filepath else c.filepath })
      (e.number - 1).toNat cs
  else cs

/-- The patching pass of `_merge_citations` (lines 308-317). -/
def patchCitations (citations : List Citation)
    (extracted : List ExtractedCitation) : List Citation :=
  extracted.foldl patchStep citations

/-- Return shape of `_merge_citations`: Python returns the extracted-citation
dicts unchanged when `retrieval_results` is falsy, and the rebuilt-and-patched
records otherwise; the two shapes are rendered as a tagged union. -/
inductive MergedCitations where
  | fromExtracted (cs : List ExtractedCitation)
  | rebuilt (cs : List Citation)
deriving Repr

/-- Translation of `_merge_citations` (lines 261-319). -/
def mergeCitations (extracted : List ExtractedCitation)
    (retrieval_results : Option (List MergeInput)) : MergedCitations :=
  match retrieval_results with
  | none => .fromExtracted extracted
  | some rs =>
    if rs.isEmpty then .fromExtracted extracted
    else .rebuilt (patchCitations (rebuildCitations rs) extracted)

/-- Whether a merge input falls into the `continue` branch of line 293. -/
def MergeInput.skipped : MergeInput → Bool
  | .other => true
  | _ => false

/-- Placeholder citation for total indexing; never produced by
`buildCitation` on a non-skipped input. -/
def defaultCitation : Citation := ⟨0, "", "", "", 0, 0, ""⟩

/-- The citation `buildCitation` produces on a non-skipped input. -/
def forcedCitation (i : Nat) (r : MergeInput) : Citation :=
  (buildCitation i r).getD defaultCitation

/-! ## Fixtures used by the witnesses and counterexamples below -/

/-- Concrete store reply realising the spec's worked example: distances
`0.2`, `0.9`, `1.8`. -/
def c1RawResults : List RawResult :=
  [⟨"alpha", default, some (1/5)⟩, ⟨"beta", default, some (9/10)⟩,
   ⟨"gamma", default, some (9/5)⟩]

/-- Retriever configuration with the default threshold `0.3`. -/
def c1Cfg : RAGRetrieverCfg := ⟨5, 3/10⟩

/-- The first retrieved result for `c1RawResults`. -/
def c1Res : RetrievalResult := ⟨"alpha", default, 1/5, 9/10⟩

/-- A vector-store model with an empty index. -/
def emptyDB : ChromaDBModel :=
  ⟨fun _ _ _ => [], fun _ => ⟨[], [], []⟩, fun _ => false, []⟩

/-- An executor over the empty index with no MCP peer attached. -/
def exNoPeer : ToolExecutor := ⟨emptyDB, none⟩

/-- A store model holding a single far-away match (distance 3). -/
def farDB : ChromaDBModel :=
  ⟨fun _ _ _ => [⟨"far", default, some 3⟩], fun _ => ⟨[], [], []⟩, fun _ => false, []⟩

/-- An oracle that always requests tool use. -/
def c2Oracle : LLMOracle := fun _ => .ok "tool_use" "" 3 5

/-- The sentence-mode counterexample text: three five-character sentences. -/
def c6Text : PyStr := "Abcd. Efgh. Ijkl.".toList

/-- A configuration with only number normalization enabled. -/
def numbersOnlyNormalizer : Normalizer :=
  { normalize_unicode := false, normalize_whitespace := false,
    normalize_linebreaks := false, normalize_quotes := false,
    normalize_dashes := false, remove_control_chars := false,
    lowercase := false, normalize_numbers := true,
    remove_urls := false, remove_emails := false }

/-- Concrete retrieval results for the C9 witness: one object-shaped and one
dict-shaped result. -/
def c9Results : List MergeInput :=
  [.obj { filename := some "report.pdf", filepath := some "/docs/report.pdf" }
     (some "Revenue grew.") (some 1),
   .dict (some { filename := some "notes.txt" }) (some "Some notes.") none]

/-- Concrete extracted "Sources:" entries for the C9 witness. -/
def c9Extracted : List ExtractedCitation :=
  [⟨1, "report-v2.pdf", "/docs/report-v2.pdf", ""⟩, ⟨7, "ghost.pdf", "", ""⟩]

/-! ## Claims about the retriever -/

theorem mem_scoreAndFilter {threshold : ℚ} {raws : List RawResult}
    {res : RetrievalResult} (h : res ∈ scoreAndFilter threshold raws) :
    ∃ r ∈ raws,
      res = ⟨r.document, r.metadata, r.distance.getD 1,
             max 0 (1 - (r.distance.getD 1) / 2)⟩ ∧
      threshold ≤ max 0 (1 - (r.distance.getD 1) / 2) := by
  simp only [scoreAndFilter, List.mem_filterMap] at h
  obtain ⟨r, hr, heq⟩ := h
  refine ⟨r, hr, ?_⟩
  split at heq
  · exact ⟨(Option.some.injEq _ _ ▸ heq).symm, by linarith [ge_iff_le.mp (by assumption)]⟩
  · exact absurd heq (by simp)

theorem mem_retrieve {cfg : RAGRetrieverCfg} {query : PyStr}
    {raws : List RawResult} {res : RetrievalResult}
    (h : res ∈ RAGRetriever.retrieve cfg query raws) :
    ∃ r ∈ raws,
      res = ⟨r.document, r.metadata, r.distance.getD 1,
             max 0 (1 - (r.distance.getD 1) / 2)⟩ ∧
      cfg.similarity_threshold ≤ res.relevance_score := by
  unfold RAGRetriever.retrieve at h
  dsimp only at h
  split at h
  · simp at h
  · split at h
    · simp at h
    · split at h
      · simp at h
      · obtain ⟨r, hr, heq, hth⟩ := mem_scoreAndFilter h
        exact ⟨r, hr, heq, by rw [heq]; exact hth⟩

/-- C1: every result returned by `RAGRetriever.retrieve` has
`relevance_score = max(0, 1 - distance/2)`, which lies in `[0, 1]` whenever
the store's distances are non-negative, and `retrieve` never returns a result
whose relevance score is below the configured similarity threshold. -/
theorem retrieve_relevance_and_threshold (cfg : RAGRetrieverCfg) (query : PyStr)
    (raw_results : List RawResult)
    (hd : ∀ r ∈ raw_results, 0 ≤ r.distance.getD 1) :
    ∀ res ∈ RAGRetriever.retrieve cfg query raw_results,
      res.relevance_score = max 0 (1 - res.distance / 2) ∧
      0 ≤ res.relevance_score ∧ res.relevance_score ≤ 1 ∧
      cfg.similarity_threshold ≤ res.relevance_score := by
  intro res hres
  obtain ⟨r, hr, heq, hth⟩ := mem_retrieve hres
  have hd0 : 0 ≤ r.distance.getD 1 := hd r hr
  subst heq
  refine ⟨rfl, le_max_left _ _, ?_, hth⟩
  have h1 : 1 - (r.distance.getD 1) / 2 ≤ 1 := by linarith
  exact max_le (by norm_num) h1

theorem retrieve_relevance_and_threshold_witness :
    c1Res ∈ RAGRetriever.retrieve c1Cfg "refund policy".toList c1RawResults ∧
    (c1Res.relevance_score = max 0 (1 - c1Res.distance / 2) ∧
     0 ≤ c1Res.relevance_score ∧ c1Res.relevance_score ≤ 1 ∧
     c1Cfg.similarity_threshold ≤ c1Res.relevance_score) := by
  have hscore : max (0 : ℚ) (1 - (1/5)/2) = 9/10 := by
    rw [max_eq_right] <;> norm_num
  have hsf : c1Res ∈ scoreAndFilter c1Cfg.similarity_threshold c1RawResults := by
    refine List.mem_filterMap.mpr
      ⟨⟨"alpha", default, some (1/5)⟩, by simp [c1RawResults], ?_⟩
    dsimp only [c1Cfg, Option.getD]
    rw [hscore, if_pos (by norm_num)]
    rfl
  have hne : scoreAndFilter c1Cfg.similarity_threshold c1RawResults ≠ [] :=
    List.ne_nil_of_mem hsf
  have hm : c1Res ∈ RAGRetriever.retrieve c1Cfg "refund policy".toList c1RawResults := by
    unfold RAGRetriever.retrieve
    rw [if_neg (by decide), if_neg (by simp [c1RawResults])]
    dsimp only
    rw [if_neg hne]
    exact hsf
  exact ⟨hm, retrieve_relevance_and_threshold c1Cfg "refund policy".toList
    c1RawResults (by norm_num [c1RawResults]) c1Res hm⟩

/-! ## Claims about the tool executor -/

/-- C4: `execute_tool` is total by construction (it is a Lean function into
`ToolResult`; every Python exception path is an explicit error value), and for
a name that is neither a registered built-in nor reported by an attached peer
it returns the failed `ToolResult` carrying `"Unknown tool: <name>"`. -/
theorem execute_tool_unknown (ex : ToolExecutor) (tool_name : String)
    (tool_input : ToolInput)
    (hb : builtinToolNames.contains tool_name = false)
    (hm : isMcpTool ex tool_name = false) :
    ex.execute_tool tool_name tool_input =
      ⟨tool_name, false, none, some ("Unknown tool: " ++ tool_name)⟩ := by
  unfold ToolExecutor.execute_tool
  rw [hb]
  simp only [Bool.false_eq_true, if_false]
  cases hc : ex.mcp_client with
  | none => rfl
  | some c =>
    simp only [hm, Bool.false_eq_true, if_false]

theorem execute_tool_unknown_witness :
    builtinToolNames.contains "frobnicate" = false ∧
    isMcpTool exNoPeer "frobnicate" = false ∧
    exNoPeer.execute_tool "frobnicate" {} =
      ⟨"frobnicate", false, none, some ("Unknown tool: " ++ "frobnicate")⟩ :=
  ⟨by decide, rfl, execute_tool_unknown exNoPeer "frobnicate" {} (by decide) rfl⟩

/-- C5 counterexample: for a filepath that is not indexed, the `ToolResult`
returned by `execute_tool` for `get_file_content` has `success = true` — the
claimed `success = false` lives only inside the payload dict, because
`execute_tool` wraps any built-in return value (lines 108-114) in a successful
`ToolResult`. -/
theorem get_file_content_unindexed_counterexample :
    emptyDB.fileIsIndexed "/docs/report.pdf" = false ∧
    (exNoPeer.execute_tool "get_file_content"
      { filepath := some "/docs/report.pdf" }).success = true ∧
    (exNoPeer.execute_tool "get_file_info"
      { filepath := some "/docs/report.pdf" }).success = true :=
  ⟨rfl, by decide, by decide⟩

/-- C5 (amended): executing `get_file_content`/`get_file_info` on a filepath
that is not indexed yields a `ToolResult` whose `success` flag is `true` and
whose payload is the inner error dict `{'success': False, 'error': ...}` with
a message identifying the un-indexed file. -/
theorem get_file_unindexed_payload (ex : ToolExecutor) (fp : String)
    (ml : Option Nat)
    (h1 : ex.chromadb_client.fileIsIndexed fp = false)
    (h2 : (ex.chromadb_client.getByFile fp).metadatas = []) :
    ex.execute_tool "get_file_content" { filepath := some fp, max_length := ml } =
      ⟨"get_file_content", true,
       some (.fileContent (.err ("File not indexed: " ++ fp))), none⟩ ∧
    ex.execute_tool "get_file_info" { filepath := some fp } =
      ⟨"get_file_info", true,
       some (.fileInfo (.err ("File not found in index: " ++ fp))), none⟩ := by
  constructor
  · unfold ToolExecutor.execute_tool
    rw [show builtinToolNames.contains "get_file_content" = true by decide]
    simp only [if_true]
    simp [executeBuiltin, getFileContent, h1]
  · unfold ToolExecutor.execute_tool
    rw [show builtinToolNames.contains "get_file_info" = true by decide]
    simp only [if_true]
    simp [executeBuiltin, getFileInfo, h2]

theorem get_file_unindexed_payload_witness :
    emptyDB.fileIsIndexed "/x.txt" = false ∧
    (exNoPeer.execute_tool "get_file_content" { filepath := some "/x.txt" } =
      ⟨"get_file_content", true,
       some (.fileContent (.err ("File not indexed: " ++ "/x.txt"))), none⟩ ∧
     exNoPeer.execute_tool "get_file_info" { filepath := some "/x.txt" } =
      ⟨"get_file_info", true,
       some (.fileInfo (.err ("File not found in index: " ++ "/x.txt"))), none⟩) :=
  ⟨rfl, get_file_unindexed_payload exNoPeer "/x.txt" none rfl rfl⟩

/-- C10: the built-in `search_documents` reports, for every raw match, exactly
`relevance = 1 - distance/2` (distance defaulting to 0) — with no clamp at 0
and no threshold filter, so a match with `distance > 2` is returned with a
negative relevance; by contrast `RAGRetriever.retrieve` (with any positive
threshold) never returns a result whose distance exceeds 2. -/
theorem search_documents_no_clamp_no_threshold (db : ChromaDBModel)
    (q : String) (k : Nat) (ftf : Option String) :
    (searchDocuments db q k ftf).num_results =
      (db.query q k (whereFilterOf ftf)).length ∧
    (searchDocuments db q k ftf).results =
      (db.query q k (whereFilterOf ftf)).map
        (fun r => SearchResultItem.mk r.document r.metadata (1 - (r.distance.getD 0) / 2)) ∧
    (∀ r ∈ db.query q k (whereFilterOf ftf), 2 < r.distance.getD 0 →
      SearchResultItem.mk r.document r.metadata (1 - (r.distance.getD 0) / 2)
        ∈ (searchDocuments db q k ftf).results ∧
      1 - (r.distance.getD 0) / 2 < 0) ∧
    (∀ cfg : RAGRetrieverCfg, ∀ query2 : PyStr, ∀ raws : List RawResult,
      0 < cfg.similarity_threshold →
      ∀ res ∈ RAGRetriever.retrieve cfg query2 raws, res.distance < 2) := by
  refine ⟨by simp [searchDocuments], rfl, ?_, ?_⟩
  · intro r hr hd
    constructor
    · simp only [searchDocuments]
      exact List.mem_map_of_mem _ hr
    · linarith
  · intro cfg query2 raws hth res hres
    obtain ⟨r, hr, heq, hscore⟩ := mem_retrieve hres
    rw [heq] at hscore ⊢
    simp only at hscore ⊢
    by_contra hlt
    push_neg at hlt
    have h0 : 1 - (r.distance.getD 1) / 2 ≤ 0 := by linarith
    rw [max_eq_left h0] at hscore
    linarith

theorem search_documents_no_clamp_witness :
    ⟨"far", default, some 3⟩ ∈ farDB.query "q" 5 (whereFilterOf none) ∧
    (2 : ℚ) < ((some (3 : ℚ)).getD 0) ∧
    SearchResultItem.mk "far" default (1 - ((some (3 : ℚ)).getD 0) / 2)
      ∈ (searchDocuments farDB "q" 5 none).results ∧
    1 - ((some (3 : ℚ)).getD 0) / 2 < 0 := by
  have h := (search_documents_no_clamp_no_threshold farDB "q" 5 none).2.2.1
    ⟨"far", default, some 3⟩ (by simp [farDB]) (by norm_num)
  exact ⟨by simp [farDB], by norm_num, h.1, h.2⟩

/-! ## Claims about the conversation orchestrator -/

theorem chatLoop_all_tool_use (oracle : LLMOracle) (model : String)
    (h : ∀ k, ∃ t i o, oracle k = .ok "tool_use" t i o) :
    ∀ remaining turn_count tin tout, ∃ tin2 tout2,
      chatLoop oracle model remaining turn_count tin tout =
        ⟨maxTurnsMessage, model, tin2, tout2, "max_turns", turn_count + remaining⟩ := by
  intro remaining
  induction remaining with
  | zero => intro t tin tout; exact ⟨tin, tout, rfl⟩
  | succ n ih =>
    intro t tin tout
    obtain ⟨txt, i, o, hk⟩ := h t
    obtain ⟨tin2, tout2, hrec⟩ := ih (t + 1) (tin + i) (tout + o)
    refine ⟨tin2, tout2, ?_⟩
    have harith : t + 1 + n = t + (n + 1) := by omega
    simp only [chatLoop, hk, eq_self_iff_true, if_true, hrec, harith]

theorem chatCallsFrom_all_tool_use (oracle : LLMOracle)
    (h : ∀ k, ∃ t i o, oracle k = .ok "tool_use" t i o) :
    ∀ remaining turn_count, chatCallsFrom oracle remaining turn_count = remaining := by
  intro remaining
  induction remaining with
  | zero => intro t; rfl
  | succ n ih =>
    intro t
    obtain ⟨txt, i, o, hk⟩ := h t
    simp only [chatCallsFrom, hk, eq_self_iff_true, if_true, ih (t + 1)]
    omega

/-- C2: if the LLM answers every call with stop reason `"tool_use"`, then
`chat` terminates after exactly `max_tool_turns` LLM calls and returns the
fixed fallback message with `stop_reason = "max_turns"` and
`turns = max_tool_turns`. -/
theorem chat_always_tool_use_max_turns (oracle : LLMOracle) (model : String)
    (max_tool_turns : Nat) (h1 : 1 ≤ max_tool_turns)
    (h2 : ∀ k, ∃ t i o, oracle k = .ok "tool_use" t i o) :
    (ClaudeClient.chat oracle model max_tool_turns).stop_reason = "max_turns" ∧
    (ClaudeClient.chat oracle model max_tool_turns).turns = max_tool_turns ∧
    (ClaudeClient.chat oracle model max_tool_turns).content = maxTurnsMessage ∧
    chatCalls oracle max_tool_turns = max_tool_turns := by
  obtain ⟨tin2, tout2, hloop⟩ := chatLoop_all_tool_use oracle model h2 max_tool_turns 0 0 0
  unfold ClaudeClient.chat
  rw [hloop]
  exact ⟨rfl, by simp, rfl, chatCallsFrom_all_tool_use oracle h2 max_tool_turns 0⟩

theorem chat_always_tool_use_max_turns_witness :
    1 ≤ 4 ∧
    ((ClaudeClient.chat c2Oracle "claude-sonnet-4-20250514" 4).stop_reason = "max_turns" ∧
     (ClaudeClient.chat c2Oracle "claude-sonnet-4-20250514" 4).turns = 4 ∧
     (ClaudeClient.chat c2Oracle "claude-sonnet-4-20250514" 4).content = maxTurnsMessage ∧
     chatCalls c2Oracle 4 = 4) :=
  ⟨by norm_num,
   chat_always_tool_use_max_turns c2Oracle "claude-sonnet-4-20250514" 4
     (by norm_num) (fun k => ⟨"", 3, 5, rfl⟩)⟩

theorem chatLoop_turns_and_tokens (oracle : LLMOracle) (model : String) :
    ∀ remaining turn_count tin tout,
      (chatLoop oracle model remaining turn_count tin tout).turns =
        turn_count + chatCallsFrom oracle remaining turn_count ∧
      (chatLoop oracle model remaining turn_count tin tout).tokens_input =
        tin + ∑ k ∈ Finset.range (chatCallsFrom oracle remaining turn_count),
          callInputTokens oracle (turn_count + k) ∧
      (chatLoop oracle model remaining turn_count tin tout).tokens_output =
        tout + ∑ k ∈ Finset.range (chatCallsFrom oracle remaining turn_count),
          callOutputTokens oracle (turn_count + k) := by
  intro remaining
  induction remaining with
  | zero => intro t tin tout; exact ⟨rfl, by simp [chatLoop, chatCallsFrom],
      by simp [chatLoop, chatCallsFrom]⟩
  | succ n ih =>
    intro t tin tout
    cases hk : oracle t with
    | apiError msg =>
      refine ⟨?_, ?_, ?_⟩ <;>
        simp [chatLoop, chatCallsFrom, hk, callInputTokens, callOutputTokens]
    | ok stop text itok otok =>
      by_cases hstop : stop = "tool_use"
      · subst hstop
        obtain ⟨ih1, ih2, ih3⟩ := ih (t + 1) (tin + itok) (tout + otok)
        have hcalls : chatCallsFrom oracle (n + 1) t =
            1 + chatCallsFrom oracle n (t + 1) := by
          simp [chatCallsFrom, hk]
        have hsum1 :
            ∑ k ∈ Finset.range (1 + chatCallsFrom oracle n (t + 1)),
              callInputTokens oracle (t + k) =
            itok + ∑ k ∈ Finset.range (chatCallsFrom oracle n (t + 1)),
              callInputTokens oracle (t + 1 + k) := by
          rw [Nat.add_comm 1, Finset.sum_range_succ']
          simp only [Nat.add_zero]
          rw [show callInputTokens oracle t = itok by simp [callInputTokens, hk]]
          rw [Nat.add_comm]
          congr 1
          apply Finset.sum_congr rfl
          intro k _
          congr 1
          omega
        have hsum2 :
            ∑ k ∈ Finset.range (1 + chatCallsFrom oracle n (t + 1)),
              callOutputTokens oracle (t + k) =
            otok + ∑ k ∈ Finset.range (chatCallsFrom oracle n (t + 1)),
              callOutputTokens oracle (t + 1 + k) := by
          rw [Nat.add_comm 1, Finset.sum_range_succ']
          simp only [Nat.add_zero]
          rw [show callOutputTokens oracle t = otok by simp [callOutputTokens, hk]]
          rw [Nat.add_comm]
          congr 1
          apply Finset.sum_congr rfl
          intro k _
          congr 1
          omega
        refine ⟨?_, ?_, ?_⟩
        · rw [show chatLoop oracle model (n + 1) t tin tout =
              chatLoop oracle model n (t + 1) (tin + itok) (tout + otok) by
              simp [chatLoop, hk]]
          rw [ih1, hcalls]
          omega
        · rw [show chatLoop oracle model (n + 1) t tin tout =
              chatLoop oracle model n (t + 1) (tin + itok) (tout + otok) by
              simp [chatLoop, hk]]
          rw [ih2, hcalls, hsum1]
          omega
        · rw [show chatLoop oracle model (n + 1) t tin tout =
              chatLoop oracle model n (t + 1) (tin + itok) (tout + otok) by
              simp [chatLoop, hk]]
          rw [ih3, hcalls, hsum2]
          omega
      · refine ⟨?_, ?_, ?_⟩ <;>
          simp [chatLoop, chatCallsFrom, hk, hstop, callInputTokens, callOutputTokens]

/-- C3: for every terminating run of `chat` — final answer, max-turns, or LLM
error — the returned `turns` equals the number of LLM calls made, and the
reported token totals are the sums of the per-call token counts over exactly
those calls (a call that raises reports no usage), accumulated additively and
never reset. -/
theorem chat_turn_and_token_accounting (oracle : LLMOracle) (model : String)
    (max_tool_turns : Nat) :
    (ClaudeClient.chat oracle model max_tool_turns).turns =
      chatCalls oracle max_tool_turns ∧
    (ClaudeClient.chat oracle model max_tool_turns).tokens_input =
      ∑ k ∈ Finset.range (chatCalls oracle max_tool_turns),
        callInputTokens oracle k ∧
    (ClaudeClient.chat oracle model max_tool_turns).tokens_output =
      ∑ k ∈ Finset.range (chatCalls oracle max_tool_turns),
        callOutputTokens oracle k := by
  obtain ⟨h1, h2, h3⟩ := chatLoop_turns_and_tokens oracle model max_tool_turns 0 0 0
  unfold ClaudeClient.chat chatCalls
  refine ⟨by rw [h1]; omega, by rw [h2]; simp, by rw [h3]; simp⟩

/-! ## Claims about the chunker -/

/-- C7 counterexample: an empty (or whitespace-only) text of length at most
`chunk_size` yields zero chunks, not one — `chunk_text` returns `[]` for falsy
or whitespace-only input before the single-chunk branch is reached. -/
theorem chunk_text_empty_counterexample :
    chunkText [] 10 2 true = [] ∧
    chunkText " ".toList 10 2 true = [] ∧
    ([] : PyStr).length ≤ 10 ∧ " ".toList.length ≤ 10 := by decide

/-- C7 (amended): for every text that is not empty nor whitespace-only, with
positive `chunk_size` and `len(text) ≤ chunk_size`, `chunk_text` returns
exactly one chunk spanning the whole input: index 0, offsets `0..len(text)`,
text equal to the input. -/
theorem chunk_text_single_chunk (text : PyStr) (chunk_size chunk_overlap : Int)
    (preserve_sentences : Bool)
    (h1 : pyStrip text ≠ [])
    (h2 : 0 < chunk_size)
    (h3 : (text.length : Int) ≤ chunk_size) :
    chunkText text chunk_size chunk_overlap preserve_sentences =
      [⟨text, 0, 0, (text.length : Int)⟩] := by
  unfold chunkText
  have htext : ¬(text = [] ∨ pyStrip text = []) := by
    rintro (h | h)
    · exact h1 (by rw [h]; rfl)
    · exact h1 h
  rw [if_neg htext]
  have hsize : ¬ chunk_size ≤ 0 := by omega
  dsimp only
  rw [if_neg hsize, if_pos h3]

theorem chunk_text_single_chunk_witness :
    pyStrip "hi there".toList ≠ [] ∧ (0 : Int) < 20 ∧
    (("hi there".toList.length : Int) ≤ 20) ∧
    chunkText "hi there".toList 20 5 true =
      [⟨"hi there".toList, 0, 0, ("hi there".toList.length : Int)⟩] :=
  ⟨by decide, by decide, by decide,
   chunk_text_single_chunk "hi there".toList 20 5 true (by decide) (by decide)
     (by decide)⟩

/-- Helper: the loop of `_chunk_by_characters` returns `[]` once the window
start has passed the end of the text. -/
theorem chunkByCharsLoop_stop (text : PyStr) (size overlap : Nat) :
    ∀ fuel start idx, ¬ start < text.length →
      chunkByCharsLoop text size overlap fuel start idx = [] := by
  intro fuel
  cases fuel with
  | zero => intro s i _; rfl
  | succ n => intro s i hs; simp [chunkByCharsLoop, hs]

/-- Helper: head of the character-mode loop when there is text left. -/
theorem chunkByCharsLoop_head (text : PyStr) (size overlap : Nat) :
    ∀ fuel start idx, start < text.length → 0 < fuel →
      (chunkByCharsLoop text size overlap fuel start idx).head? =
        some ⟨(text.drop start).take size, idx, (start : Int),
              ((start + size : Nat) : Int)⟩ := by
  intro fuel
  cases fuel with
  | zero => intro s i _ hf; omega
  | succ n => intro s i hs _; simp [chunkByCharsLoop, hs]

/-- Helper: every chunk produced by the character-mode loop has text of length
at most `size` and is precisely the `size`-wide slice of the input at its own
(in-range) start offset. -/
theorem chunkByCharsLoop_mem (text : PyStr) (size overlap : Nat) :
    ∀ fuel start idx, ∀ c ∈ chunkByCharsLoop text size overlap fuel start idx,
      c.text.length ≤ size ∧
      ∃ st : Nat, st < text.length ∧ c.start_pos = (st : Int) ∧
        c.end_pos = (st : Int) + (size : Int) ∧
        c.text = (text.drop st).take size := by
  intro fuel
  induction fuel with
  | zero => intro s i c hc; simp [chunkByCharsLoop] at hc
  | succ n ih =>
    intro s i c hc
    by_cases hs : s < text.length
    · simp only [chunkByCharsLoop, if_pos hs] at hc
      rcases List.mem_cons.mp hc with hceq | hctail
      · subst hceq
        refine ⟨by simp, s, hs, rfl, by push_cast; ring, rfl⟩
      · exact ih (s + size - overlap) (i + 1) c hctail
    · simp only [chunkByCharsLoop, if_neg hs] at hc
      simp at hc

/-- Helper: consecutive chunks of the character-mode loop overlap by exactly
`overlap` characters: each next `start_pos` is the previous `end_pos` minus
the overlap, so the spans leave no gap. -/
theorem chunkByCharsLoop_chain (text : PyStr) (size overlap : Nat)
    (h : overlap < size) :
    ∀ fuel start idx,
      List.Chain' (fun a b => b.start_pos = a.end_pos - (overlap : Int))
        (chunkByCharsLoop text size overlap fuel start idx) := by
  intro fuel
  induction fuel with
  | zero => intro s i; simp [chunkByCharsLoop]
  | succ n ih =>
    intro s i
    by_cases hs : s < text.length
    · simp only [chunkByCharsLoop, if_pos hs]
      refine List.chain'_cons'.mpr ⟨?_, ih (s + size - overlap) (i + 1)⟩
      intro b hb
      by_cases hlive : 0 < n ∧ s + size - overlap < text.length
      · rw [chunkByCharsLoop_head text size overlap n (s + size - overlap) (i + 1)
            hlive.2 hlive.1] at hb
        simp only [Option.mem_def, Option.some.injEq] at hb
        subst hb
        simp only
        omega
      · rcases Decidable.not_and_iff_or_not.mp hlive with hn | hstop
        · have hn0 : n = 0 := by omega
          subst hn0
          simp [chunkByCharsLoop] at hb
        · rw [chunkByCharsLoop_stop text size overlap n (s + size - overlap) (i + 1)
              hstop] at hb
          simp at hb
    · simp [chunkByCharsLoop_stop text size overlap (n + 1) s i hs]

/-- Helper: the last chunk of the character-mode loop ends at or beyond the
end of the text (so the spans cover the input), provided the fuel dominates
the remaining text, which `overlap < size` maintains. -/
theorem chunkByCharsLoop_last_end (text : PyStr) (size overlap : Nat)
    (h : overlap < size) :
    ∀ fuel start idx, text.length ≤ start + fuel → start < text.length →
      ∃ c, (chunkByCharsLoop text size overlap fuel start idx).getLast? = some c ∧
        (text.length : Int) ≤ c.end_pos := by
  intro fuel
  induction fuel with
  | zero => intro s i hf hs; omega
  | succ n ih =>
    intro s i hf hs
    simp only [chunkByCharsLoop, if_pos hs]
    by_cases hs2 : s + size - overlap < text.length
    · obtain ⟨c, hc1, hc2⟩ := ih (s + size - overlap) (i + 1) (by omega) hs2
      refine ⟨c, ?_, hc2⟩
      rw [List.getLast?_cons, hc1]
      rfl
    · rw [chunkByCharsLoop_stop text size overlap n (s + size - overlap) (i + 1) hs2]
      refine ⟨_, rfl, ?_⟩
      show (text.length : Int) ≤ ((s + size : Nat) : Int)
      omega

/-- C6 (amended): in character mode — the mode the sentence chunker also
falls back to, and the only mode whose spans are exact — the chunks tile the
input: the first chunk starts at offset 0, each following chunk starts exactly
`overlap` characters before the previous one ends (no gaps), the final chunk
ends at or past the end of the text, and every chunk's text is the
`chunk_size`-bounded slice of the input at its own span. -/
theorem chunking_coverage_character_mode (text : PyStr) (size overlap : Nat)
    (h1 : overlap < size) (h2 : text ≠ []) :
    chunkByCharacters text size overlap ≠ [] ∧
    (chunkByCharacters text size overlap).head? =
      some ⟨text.take size, 0, 0, (size : Int)⟩ ∧
    List.Chain' (fun a b => b.start_pos = a.end_pos - (overlap : Int))
      (chunkByCharacters text size overlap) ∧
    (∃ c, (chunkByCharacters text size overlap).getLast? = some c ∧
      (text.length : Int) ≤ c.end_pos) ∧
    (∀ c ∈ chunkByCharacters text size overlap,
      c.text.length ≤ size ∧
      ∃ st : Nat, st < text.length ∧ c.start_pos = (st : Int) ∧
        c.end_pos = (st : Int) + (size : Int) ∧
        c.text = (text.drop st).take size) := by
  have hlen : 0 < text.length := List.length_pos.mpr h2
  unfold chunkByCharacters
  rw [if_pos h1]
  have hhead := chunkByCharsLoop_head text size overlap text.length 0 0 hlen hlen
  constructor
  · intro he
    rw [he] at hhead
    simp at hhead
  refine ⟨?_, chunkByCharsLoop_chain text size overlap h1 text.length 0 0,
    chunkByCharsLoop_last_end text size overlap h1 text.length 0 0 (by omega) hlen,
    fun c hc => chunkByCharsLoop_mem text size overlap text.length 0 0 c hc⟩
  rw [hhead]
  simp

theorem chunking_coverage_character_mode_witness :
    (1 : Nat) < 4 ∧ "abcdef".toList ≠ [] ∧
    (chunkByCharacters "abcdef".toList 4 1 ≠ [] ∧
     (chunkByCharacters "abcdef".toList 4 1).head? =
       some ⟨"abcdef".toList.take 4, 0, 0, (4 : Int)⟩ ∧
     List.Chain' (fun a b => b.start_pos = a.end_pos - ((1 : Nat) : Int))
       (chunkByCharacters "abcdef".toList 4 1) ∧
     (∃ c, (chunkByCharacters "abcdef".toList 4 1).getLast? = some c ∧
       (("abcdef".toList.length : Nat) : Int) ≤ c.end_pos) ∧
     (∀ c ∈ chunkByCharacters "abcdef".toList 4 1,
       c.text.length ≤ 4 ∧
       ∃ st : Nat, st < "abcdef".toList.length ∧ c.start_pos = (st : Int) ∧
         c.end_pos = (st : Int) + ((4 : Nat) : Int) ∧
         c.text = ("abcdef".toList.drop st).take 4)) :=
  ⟨by decide, by decide,
   chunking_coverage_character_mode "abcdef".toList 4 1 (by decide) (by decide)⟩

/-- C6 counterexample: in sentence mode with `chunk_size = 10`,
`chunk_overlap = 0`, the input `"Abcd. Efgh. Ijkl."` (every sentence of length
5 ≤ 10) produces a chunk of text length 11 > 10, and the final span ends at 16
while the input has length 17 — a trailing gap larger than the overlap. -/
theorem chunk_text_sentence_mode_counterexample :
    (splitIntoSentences c6Text).map List.length = [5, 5, 5] ∧
    (chunkText c6Text 10 0 true).map
      (fun c => (c.text.length, c.chunk_index, c.start_pos, c.end_pos)) =
      [(5, 0, 0, 5), (11, 1, 5, 16)] ∧
    c6Text.length = 17 := by decide

/-! ## Claims about the normalizer -/

/-- C8: `normalize` is not idempotent.  With the default configuration,
`"a \n \n \nb"` normalizes to `"a\n\n\nb"` (per-line trimming creates a fresh
blank-line run after the blank-line collapse has already happened), and a
second call collapses it further to `"a\n\nb"`.  With number normalization
enabled, the single-pass `re.sub` leaves `"1,000,000"` as `"1000,000"`, which
a second call rewrites to `"1000000"`. -/
theorem normalize_second_call_changes_output :
    Normalizer.normalize asciiLib defaultNormalizer "a \n \n \nb".toList =
      "a\n\n\nb".toList ∧
    Normalizer.normalize asciiLib defaultNormalizer
      (Normalizer.normalize asciiLib defaultNormalizer "a \n \n \nb".toList) =
      "a\n\nb".toList ∧
    "a\n\n\nb".toList ≠ "a\n\nb".toList ∧
    Normalizer.normalize asciiLib numbersOnlyNormalizer "1,000,000".toList =
      "1000,000".toList ∧
    Normalizer.normalize asciiLib numbersOnlyNormalizer
      (Normalizer.normalize asciiLib numbersOnlyNormalizer "1,000,000".toList) =
      "1000000".toList ∧
    "1000,000".toList ≠ "1000000".toList := by decide

/-! ## Claims about the response formatter -/

theorem enumFrom_get? {α : Type} :
    ∀ (l : List α) (n k : Nat),
      (List.enumFrom n l).get? k = (l.get? k).map (fun a => (n + k, a)) := by
  intro l
  induction l with
  | nil => intro n k; simp
  | cons a as ih =>
    intro n k
    cases k with
    | zero => simp [List.enumFrom]
    | succ m =>
      simp only [List.enumFrom, List.get?_cons_succ, ih (n + 1) m]
      have harith : n + 1 + m = n + (m + 1) := by omega
      rw [harith]

theorem rebuild_enumFrom (rs : List MergeInput)
    (h : ∀ r ∈ rs, r.skipped = false) :
    ∀ n, (List.enumFrom n rs).filterMap (fun p => buildCitation p.1 p.2) =
      (List.enumFrom n rs).map (fun p => forcedCitation p.1 p.2) := by
  induction rs with
  | nil => intro n; rfl
  | cons r rest ih =>
    intro n
    have hr : r.skipped = false := h r (List.mem_cons_self r rest)
    have hrest : ∀ x ∈ rest, x.skipped = false :=
      fun x hx => h x (List.mem_cons_of_mem r hx)
    cases r with
    | other => simp [MergeInput.skipped] at hr
    | obj metadata text relevance =>
      rw [show List.enumFrom n (MergeInput.obj metadata text relevance :: rest) =
          (n, MergeInput.obj metadata text relevance) :: List.enumFrom (n + 1) rest
          from rfl, List.filterMap_cons, ih hrest (n + 1)]
      rfl
    | dict metadata document relevance =>
      rw [show List.enumFrom n (MergeInput.dict metadata document relevance :: rest) =
          (n, MergeInput.dict metadata document relevance) :: List.enumFrom (n + 1) rest
          from rfl, List.filterMap_cons, ih hrest (n + 1)]
      rfl

theorem rebuildCitations_eq_map (rs : List MergeInput)
    (h : ∀ r ∈ rs, r.skipped = false) :
    rebuildCitations rs = rs.enum.map (fun p => forcedCitation p.1 p.2) :=
  rebuild_enumFrom rs h 0

theorem rebuildCitations_length (rs : List MergeInput)
    (h : ∀ r ∈ rs, r.skipped = false) :
    (rebuildCitations rs).length = rs.length := by
  rw [rebuildCitations_eq_map rs h]
  simp

theorem rebuildCitations_get? (rs : List MergeInput)
    (h : ∀ r ∈ rs, r.skipped = false) (k : Nat) (hk : k < rs.length) :
    ∃ r, rs.get? k = some r ∧
      (rebuildCitations rs).get? k = some (forcedCitation k r) := by
  rw [rebuildCitations_eq_map rs h]
  have hr : rs.get? k = some (rs.get ⟨k, hk⟩) := List.get?_eq_get hk
  refine ⟨rs.get ⟨k, hk⟩, hr, ?_⟩
  rw [List.get?_map, show rs.enum = List.enumFrom 0 rs from rfl, enumFrom_get? rs 0 k,
    hr]
  simp

theorem forcedCitation_number (k : Nat) (r : MergeInput)
    (h : r.skipped = false) : (forcedCitation k r).number = (k : Int) + 1 := by
  cases r with
  | other => simp [MergeInput.skipped] at h
  | obj metadata text relevance => rfl
  | dict metadata document relevance => rfl

theorem listModify_length {α : Type} (f : α → α) :
    ∀ (n : Nat) (l : List α), (listModify f n l).length = l.length := by
  intro n l
  induction l generalizing n with
  | nil => cases n <;> rfl
  | cons a as ih =>
    cases n with
    | zero => rfl
    | succ m => simp [listModify, ih m]

theorem listModify_get?_ne {α : Type} (f : α → α) :
    ∀ (n : Nat) (l : List α) (k : Nat), k ≠ n →
      (listModify f n l).get? k = l.get? k := by
  intro n l
  induction l generalizing n with
  | nil => intro k _; cases n <;> rfl
  | cons a as ih =>
    intro k hk
    cases n with
    | zero =>
      cases k with
      | zero => exact absurd rfl hk
      | succ m => rfl
    | succ m =>
      cases k with
      | zero => rfl
      | succ j => simpa [listModify] using ih m j (by omega)

theorem listModify_get?_eq {α : Type} (f : α → α) :
    ∀ (n : Nat) (l : List α), (listModify f n l).get? n = (l.get? n).map f := by
  intro n l
  induction l generalizing n with
  | nil => cases n <;> rfl
  | cons a as ih =>
    cases n with
    | zero => rfl
    | succ m => simpa [listModify] using ih m

theorem patchStep_length (cs : List Citation) (e : ExtractedCitation) :
    (patchStep cs e).length = cs.length := by
  unfold patchStep
  split
  · rw [listModify_length]
  · rfl

theorem patchCitations_length (extracted : List ExtractedCitation) :
    ∀ cs : List Citation, (patchCitations cs extracted).length = cs.length := by
  induction extracted with
  | nil => intro cs; rfl
  | cons e es ih =>
    intro cs
    show (patchCitations (patchStep cs e) es).length = cs.length
    rw [ih (patchStep cs e), patchStep_length]

theorem patchCitations_get? (extracted : List ExtractedCitation) :
    ∀ (cs : List Citation) (k : Nat) (c0 : Citation), cs.get? k = some c0 →
      ∃ c, (patchCitations cs extracted).get? k = some c ∧
        c.number = c0.number ∧ c.excerpt = c0.excerpt ∧
        c.chunk_index = c0.chunk_index ∧
        c.relevance_score = c0.relevance_score ∧ c.file_type = c0.file_type ∧
        (c.filename = c0.filename ∨ ∃ e ∈ extracted,
          e.number = (k : Int) + 1 ∧ e.filename ≠ "" ∧ c.filename = e.filename) ∧
        (c.filepath = c0.filepath ∨ ∃ e ∈ extracted,
          e.number = (k : Int) + 1 ∧ e.filepath ≠ "" ∧ c.filepath = e.filepath) := by
  induction extracted with
  | nil =>
    intro cs k c0 h
    exact ⟨c0, h, rfl, rfl, rfl, rfl, rfl, Or.inl rfl, Or.inl rfl⟩
  | cons e es ih =>
    intro cs k c0 h
    have hstep : patchCitations cs (e :: es) = patchCitations (patchStep cs e) es := rfl
    rw [hstep]
    by_cases hcond : 0 < e.number ∧ e.number ≤ (cs.length : Int)
    · by_cases hk : k = (e.number - 1).toNat
      · -- this extracted citation patches exactly index k
        have hnum : e.number = (k : Int) + 1 := by omega
        have hget : (patchStep cs e).get? k = some
            { c0 with
              filename := if e.filename ≠ "" then e.filename else c0.filename,
              filepath := if e.filepath ≠ "" then e.filepath else c0.filepath } := by
          unfold patchStep
          rw [if_pos hcond, ← hk, listModify_get?_eq, h]
          rfl
        obtain ⟨c, hc, h1, h2, h3, h4, h5, h6, h7⟩ := ih (patchStep cs e) k _ hget
        refine ⟨c, hc, h1, h2, h3, h4, h5, ?_, ?_⟩
        · rcases h6 with h6 | ⟨e2, he2, hn2, hne2, heq2⟩
          · by_cases hne : e.filename = ""
            · exact Or.inl (by rw [h6]; simp [hne])
            · exact Or.inr ⟨e, List.mem_cons_self e es, hnum, hne,
                by rw [h6]; simp [hne]⟩
          · exact Or.inr ⟨e2, List.mem_cons_of_mem e he2, hn2, hne2, heq2⟩
        · rcases h7 with h7 | ⟨e2, he2, hn2, hne2, heq2⟩
          · by_cases hne : e.filepath = ""
            · exact Or.inl (by rw [h7]; simp [hne])
            · exact Or.inr ⟨e, List.mem_cons_self e es, hnum, hne,
                by rw [h7]; simp [hne]⟩
          · exact Or.inr ⟨e2, List.mem_cons_of_mem e he2, hn2, hne2, heq2⟩
      · have hget : (patchStep cs e).get? k = some c0 := by
          unfold patchStep
          rw [if_pos hcond, listModify_get?_ne _ _ _ _ hk, h]
        obtain ⟨c, hc, h1, h2, h3, h4, h5, h6, h7⟩ := ih (patchStep cs e) k c0 hget
        refine ⟨c, hc, h1, h2, h3, h4, h5, ?_, ?_⟩
        · rcases h6 with h6 | ⟨e2, he2, hn2, hne2, heq2⟩
          · exact Or.inl h6
          · exact Or.inr ⟨e2, List.mem_cons_of_mem e he2, hn2, hne2, heq2⟩
        · rcases h7 with h7 | ⟨e2, he2, hn2, hne2, heq2⟩
          · exact Or.inl h7
          · exact Or.inr ⟨e2, List.mem_cons_of_mem e he2, hn2, hne2, heq2⟩
    · have hget : (patchStep cs e).get? k = some c0 := by
        unfold patchStep
        rw [if_neg hcond, h]
      obtain ⟨c, hc, h1, h2, h3, h4, h5, h6, h7⟩ := ih (patchStep cs e) k c0 hget
      refine ⟨c, hc, h1, h2, h3, h4, h5, ?_, ?_⟩
      · rcases h6 with h6 | ⟨e2, he2, hn2, hne2, heq2⟩
        · exact Or.inl h6
        · exact Or.inr ⟨e2, List.mem_cons_of_mem e he2, hn2, hne2, heq2⟩
      · rcases h7 with h7 | ⟨e2, he2, hn2, hne2, heq2⟩
        · exact Or.inl h7
        · exact Or.inr ⟨e2, List.mem_cons_of_mem e he2, hn2, hne2, heq2⟩

/-- C9: when a non-empty `retrieval_results` list (each element an object
with metadata or a dict) is supplied, `_merge_citations` rebuilds the
citations from the retrieval metadata, numbered `1..N` in retrieval order
with exactly one citation per result; extracted "Sources:" entries only
overwrite `filename`/`filepath` of the citation with the matching number and
never add citations or change the count. -/
theorem merge_citations_rebuilt (extracted : List ExtractedCitation)
    (rs : List MergeInput) (h1 : rs ≠ [])
    (h2 : ∀ r ∈ rs, r.skipped = false) :
    ∃ cs, mergeCitations extracted (some rs) = .rebuilt cs ∧
      cs.length = rs.length ∧
      ∀ k : Nat, k < rs.length →
        ∃ c c0, cs.get? k = some c ∧ (rebuildCitations rs).get? k = some c0 ∧
          c.number = (k : Int) + 1 ∧
          c.excerpt = c0.excerpt ∧ c.chunk_index = c0.chunk_index ∧
          c.relevance_score = c0.relevance_score ∧ c.file_type = c0.file_type ∧
          (c.filename = c0.filename ∨ ∃ e ∈ extracted,
            e.number = (k : Int) + 1 ∧ e.filename ≠ "" ∧ c.filename = e.filename) ∧
          (c.filepath = c0.filepath ∨ ∃ e ∈ extracted,
            e.number = (k : Int) + 1 ∧ e.filepath ≠ "" ∧ c.filepath = e.filepath) := by
  refine ⟨patchCitations (rebuildCitations rs) extracted, ?_, ?_, ?_⟩
  · simp only [mergeCitations]
    rw [if_neg (by simpa using h1)]
  · rw [patchCitations_length, rebuildCitations_length rs h2]
  · intro k hk
    obtain ⟨r, hr, hrb⟩ := rebuildCitations_get? rs h2 k hk
    obtain ⟨c, hc, hn, he, hci, hrel, hft, hfn, hfp⟩ :=
      patchCitations_get? extracted (rebuildCitations rs) k _ hrb
    have hrmem : r ∈ rs := List.get?_mem hr
    refine ⟨c, forcedCitation k r, hc, hrb, ?_, he, hci, hrel, hft, hfn, hfp⟩
    rw [hn, forcedCitation_number k r (h2 r hrmem)]

theorem merge_citations_rebuilt_witness :
    c9Results ≠ [] ∧ (∀ r ∈ c9Results, r.skipped = false) ∧
    (∃ cs, mergeCitations c9Extracted (some c9Results) = .rebuilt cs ∧
      cs.length = c9Results.length ∧
      ∀ k : Nat, k < c9Results.length →
        ∃ c c0, cs.get? k = some c ∧
          (rebuildCitations c9Results).get? k = some c0 ∧
          c.number = (k : Int) + 1 ∧
          c.excerpt = c0.excerpt ∧ c.chunk_index = c0.chunk_index ∧
          c.relevance_score = c0.relevance_score ∧ c.file_type = c0.file_type ∧
          (c.filename = c0.filename ∨ ∃ e ∈ c9Extracted,
            e.number = (k : Int) + 1 ∧ e.filename ≠ "" ∧ c.filename = e.filename) ∧
          (c.filepath = c0.filepath ∨ ∃ e ∈ c9Extracted,
            e.number = (k : Int) + 1 ∧ e.filepath ≠ "" ∧ c.filepath = e.filepath)) :=
  ⟨by simp [c9Results], by decide,
   merge_citations_rebuilt c9Extracted c9Results (by simp [c9Results]) (by decide)⟩
